import Mathlib

/-!
Verification of the `SetParametersFromFiles` action
(`launch_ros/actions/set_parameters_from_files.py`).

The action stores, per filename given at construction, a normalized list of
substitutions; `execute` resolves each stored list against a launch context
and appends the resulting strings to the `global_params` entry of the
context's `launch_configurations` dictionary.

Shallow embedding notes:
* Python dictionaries are embedded as association lists (`List (String × α)`)
  with insertion-order-preserving assignment (`insertKey`).
* Python's in-place list mutation in `execute` is embedded by threading the
  observable end state explicitly: when the `global_params` key is already
  bound to a list, `list.append` mutates the very object stored in the
  dictionary, so partial appends are visible even when a later substitution
  fails and the final write-back is never reached; when the key is absent,
  the appends happen on a fresh list not yet reachable from the dictionary.
* Fallible operations return `Except`/`Option`; `execute` returns the
  resulting context together with `Option ExecError` recording whether the
  call completed normally or raised.
-/

set_option autoImplicit false

namespace LaunchRos

/-- A deferred unit of text production (external `launch.Substitution`
collaborator). Modelled from the spec: "a polymorphic unit of deferred text
production. Capability: given a resolution context, produce a string."
Two canonical primitives suffice for the claims: a literal-text substitution
and an environment-variable lookup (which can fail at resolution time). -/
inductive Substitution where
  | text : String → Substitution
  | env : String → Substitution
deriving DecidableEq

/-- One element of a sequence passed as a `SomeSubstitutionsType` value:
raw text, a substitution object, or something of neither kind (e.g. an
integer), which the normalizer must reject. -/
inductive SubInputElem where
  | text : String → SubInputElem
  | sub : Substitution → SubInputElem
  | invalid : SubInputElem
deriving DecidableEq

/-- A `SomeSubstitutionsType` value: a single text, a single substitution,
a sequence of text/substitution elements, or an invalid input (e.g. an
integer) that the normalizer rejects. -/
inductive SomeSubstitutionsInput where
  | text : String → SomeSubstitutionsInput
  | sub : Substitution → SomeSubstitutionsInput
  | listOf : List SubInputElem → SomeSubstitutionsInput
  | invalid : SomeSubstitutionsInput
deriving DecidableEq

/-- The normalizer's only failure: an input element that is neither text nor
a recognized substitution (`InvalidSubstitutionInput` of the spec, a Python
`TypeError`). -/
inductive NormalizeError where
  | invalidSubstitutionInput : NormalizeError
deriving DecidableEq

/-- Modelled from the spec: element-wise step of the external
`launch.utilities.normalize_to_list_of_substitutions` collaborator — raw
text is wrapped as a literal-text substitution, a substitution is kept
unchanged, anything else fails with `InvalidSubstitutionInput`. -/
def normalizeElem : SubInputElem → Except NormalizeError Substitution
  | SubInputElem.text s => Except.ok (Substitution.text s)
  | SubInputElem.sub x => Except.ok x
  | SubInputElem.invalid => Except.error NormalizeError.invalidSubstitutionInput

/-- Modelled from the spec: normalization of each element of a sequence, in
order, failing on the first invalid element. -/
def normalizeElems : List SubInputElem → Except NormalizeError (List Substitution)
  | [] => Except.ok []
  | e :: rest =>
    match normalizeElem e with
    | Except.error err => Except.error err
    | Except.ok x =>
      match normalizeElems rest with
      | Except.error err => Except.error err
      | Except.ok xs => Except.ok (x :: xs)

/-- Modelled from the spec: the external collaborator
`launch.utilities.normalize_to_list_of_substitutions` (not part of this
repository). "If input is a single atomic text or substitution, returns a
one-element sequence. If input is already a sequence, returns it unchanged
in order (each element individually normalized if it is raw text, wrapping
it as a literal-text substitution). Error condition: fails with
`InvalidSubstitutionInput` if an element is neither text nor a recognized
Substitution capability." It is a pure function: it takes no execution
context, so it cannot touch one, and determinism is function-ness. -/
def normalize_to_list_of_substitutions :
    SomeSubstitutionsInput → Except NormalizeError (List Substitution)
  | SomeSubstitutionsInput.text s => Except.ok [Substitution.text s]
  | SomeSubstitutionsInput.sub x => Except.ok [x]
  | SomeSubstitutionsInput.listOf es => normalizeElems es
  | SomeSubstitutionsInput.invalid =>
    Except.error NormalizeError.invalidSubstitutionInput

/-- A value stored in the `launch_configurations` dictionary: launch
configurations are normally strings, while this action stores a list of
strings under the `global_params` key. -/
inductive ConfigValue where
  | str : String → ConfigValue
  | strList : List String → ConfigValue
deriving DecidableEq

/-- Dictionary lookup on an association list (Python `dict.get` /
`dict.__getitem__` membership part). -/
def lookupKey {α : Type} : List (String × α) → String → Option α
  | [], _ => none
  | p :: rest, k => if p.1 = k then some p.2 else lookupKey rest k

/-- Dictionary assignment (Python `d[k] = v`): an existing key keeps its
position and gets the new value; a new key is appended at the end,
matching Python's insertion-order semantics. -/
def insertKey {α : Type} : List (String × α) → String → α → List (String × α)
  | [], k, v => [(k, v)]
  | p :: rest, k, v =>
    if p.1 = k then (k, v) :: rest else p :: insertKey rest k v

/-- The mutable execution context (external `launch.LaunchContext`
collaborator). Modelled from the spec: "mutable state holding a mapping from
configuration keys (strings) to arbitrary accumulated values, plus the
ambient data substitutions need to resolve (environment, ...)". -/
structure LaunchContext where
  launch_configurations : List (String × ConfigValue)
  environment : List (String × String)
deriving DecidableEq

/-- A resolution-time failure of a substitution (the spec's opaque
`SubstitutionResolutionError`): here, a missing environment variable. -/
inductive SubstitutionError where
  | missingEnv : String → SubstitutionError
deriving DecidableEq

/-- Modelled from the spec: resolving one substitution against the context
("given a resolution context, produce a string"). Literal text yields
itself; an environment lookup yields the variable's value or fails. -/
def Substitution.perform (ctx : LaunchContext) :
    Substitution → Except SubstitutionError String
  | Substitution.text s => Except.ok s
  | Substitution.env n =>
    match lookupKey ctx.environment n with
    | some v => Except.ok v
    | none => Except.error (SubstitutionError.missingEnv n)

/-- Modelled from the spec: the external `launch.utilities.perform_substitutions`
collaborator — resolve every substitution of a sequence against the context
and concatenate the resulting strings, propagating the first failure. -/
def perform_substitutions (ctx : LaunchContext) :
    List Substitution → Except SubstitutionError String
  | [] => Except.ok ""
  | s :: rest =>
    match Substitution.perform ctx s with
    | Except.error e => Except.error e
    | Except.ok v =>
      match perform_substitutions ctx rest with
      | Except.error e => Except.error e
      | Except.ok r => Except.ok (v ++ r)

/-- The `SetParametersFromFiles` action: it owns the list
`self._input_files` of normalized substitution sequences, one per filename
supplied at construction. -/
structure SetParametersFromFiles where
  input_files : List (List Substitution)
deriving DecidableEq

/-- The loop of `SetParametersFromFiles.__init__`:
`for filename in filenames: self._input_files.append(normalize_to_list_of_substitutions(filename))`,
propagating the normalizer's exception. -/
def initInputFiles :
    List SomeSubstitutionsInput → Except NormalizeError (List (List Substitution))
  | [] => Except.ok []
  | f :: rest =>
    match normalize_to_list_of_substitutions f with
    | Except.error e => Except.error e
    | Except.ok nf =>
      match initInputFiles rest with
      | Except.error e => Except.error e
      | Except.ok nrest => Except.ok (nf :: nrest)

/-- `SetParametersFromFiles.__init__(self, filenames, **kwargs)`: normalize
each element of `filenames`, in order, as the stored `_input_files`;
construction fails iff normalization of some element fails. -/
def SetParametersFromFiles.init (filenames : List SomeSubstitutionsInput) :
    Except NormalizeError SetParametersFromFiles :=
  match initInputFiles filenames with
  | Except.error e => Except.error e
  | Except.ok files => Except.ok (SetParametersFromFiles.mk files)

/-- An exception raised by `SetParametersFromFiles.execute`: either a
substitution-resolution error propagated from `perform_substitutions`, or
the `AttributeError` Python raises when `.append` is called on the non-list
value found under `global_params`. -/
inductive ExecError where
  | resolution : SubstitutionError → ExecError
  | attributeError : ExecError
deriving DecidableEq

/-- The loop of `execute`: resolve each stored substitution sequence in
declaration order and append the result to the accumulator list, stopping
at the first resolution failure (the appends made before the failure have
already happened). Returns the accumulator's final contents and the error,
if any. -/
def resolveFiles (ctx : LaunchContext) :
    List (List Substitution) → List String → List String × Option SubstitutionError
  | [], acc => (acc, none)
  | f :: rest, acc =>
    match perform_substitutions ctx f with
    | Except.ok s => resolveFiles ctx rest (acc ++ [s])
    | Except.error e => (acc, some e)

/-- `SetParametersFromFiles.execute(self, context)`:

```
global_param_list = context.launch_configurations.get('global_params', [])
for input_file in self._input_files:
    filename = perform_substitutions(context, input_file)
    global_param_list.append(filename)
context.launch_configurations['global_params'] = global_param_list
```

Embedding of the Python object semantics:
* `global_params` bound to a list: `get` returns that very list object, so
  each `append` is immediately visible in the dictionary; the final
  assignment stores the same object back. Hence the end state holds the
  extended list even when a later resolution raises and the assignment line
  is never reached.
* `global_params` bound to a non-list (a plain string): with no stored
  files the loop body never runs and the assignment stores the value back
  unchanged; with at least one stored file, the first iteration resolves
  the file and then `append` raises `AttributeError`, leaving the context
  unchanged.
* key absent: `get` returns a fresh `[]` unreachable from the dictionary,
  so on a resolution error the context is unchanged; on completion the
  assignment binds the key to the accumulated list.

Returns the observable resulting context and the raised exception, if any. -/
def SetParametersFromFiles.execute (a : SetParametersFromFiles)
    (ctx : LaunchContext) : LaunchContext × Option ExecError :=
  match lookupKey ctx.launch_configurations "global_params" with
  | some (ConfigValue.strList l0) =>
    let r := resolveFiles ctx a.input_files l0
    (LaunchContext.mk
      (insertKey ctx.launch_configurations "global_params" (ConfigValue.strList r.1))
      ctx.environment,
     r.2.map ExecError.resolution)
  | some (ConfigValue.str s) =>
    match a.input_files with
    | [] =>
      (LaunchContext.mk
        (insertKey ctx.launch_configurations "global_params" (ConfigValue.str s))
        ctx.environment,
       none)
    | f :: _ =>
      match perform_substitutions ctx f with
      | Except.error e => (ctx, some (ExecError.resolution e))
      | Except.ok _ => (ctx, some ExecError.attributeError)
  | none =>
    let r := resolveFiles ctx a.input_files []
    match r.2 with
    | none =>
      (LaunchContext.mk
        (insertKey ctx.launch_configurations "global_params" (ConfigValue.strList r.1))
        ctx.environment,
       none)
    | some e => (ctx, some (ExecError.resolution e))

/-- Reading the current `global_params` value the way `execute` does:
`context.launch_configurations.get('global_params', [])` — the stored list
when the key is bound to one, the empty list when the key is absent, and
`none` (no list readable) when the key is bound to a non-list value. -/
def getGlobalParamsOrDefault (ctx : LaunchContext) : Option (List String) :=
  match lookupKey ctx.launch_configurations "global_params" with
  | none => some []
  | some (ConfigValue.strList l) => some l
  | some (ConfigValue.str _) => none

/-- Sequential resolution of a list of substitution sequences against a
fixed context: the list `[resolve(f1), ..., resolve(fn)]` of the spec,
failing if any resolution fails. -/
def resolveAll (ctx : LaunchContext) :
    List (List Substitution) → Except SubstitutionError (List String)
  | [] => Except.ok []
  | f :: rest =>
    match perform_substitutions ctx f with
    | Except.error e => Except.error e
    | Except.ok s =>
      match resolveAll ctx rest with
      | Except.error e => Except.error e
      | Except.ok r => Except.ok (s :: r)

/-- A declarative front-end entity (external `launch.frontend.Entity`
collaborator): its attributes, as an association list. -/
structure Entity where
  attributes : List (String × String)

/-- `entity.get_attr(name)`: the attribute's raw value, `none` when the
entity carries no such attribute. -/
def Entity.get_attr (e : Entity) (name : String) : Option String :=
  lookupKey e.attributes name

/-- A declarative front-end parser (external `launch.frontend.Parser`
collaborator): the only capability `parse` uses is
`parser.parse_substitution`, which turns an attribute's raw text into a
list of substitutions. -/
structure Parser where
  parse_substitution : String → List Substitution

/-- A value stored in the kwargs dictionary that `parse` returns: either
the substitution list produced by `parser.parse_substitution`, or a
collection suitable for the constructor's `filenames` parameter. -/
inductive KwargValue where
  | substitutionList : List Substitution → KwargValue
  | filenamesList : List SomeSubstitutionsInput → KwargValue

/-- The class object returned as the first component of `parse`. -/
inductive ActionClass where
  | setParametersFromFiles : ActionClass
deriving DecidableEq

/-- Modelled from the spec: the base `Action.parse` (external `launch`
collaborator) called via `super().parse(entity, parser)`. It consumes only
condition-related attributes and contributes no filename-related
constructor arguments; modelled as contributing no kwargs. -/
def actionParse (_entity : Entity) (_p : Parser) :
    List (String × KwargValue) :=
  []

/-- `SetParametersFromFiles.parse(cls, entity, parser)`:

```
_, kwargs = super().parse(entity, parser)
kwargs['filename'] = parser.parse_substitution(entity.get_attr('filename'))
return cls, kwargs
```

`none` models the exception `entity.get_attr` raises when the attribute is
absent. Note the kwargs key is the singular `'filename'`. -/
def SetParametersFromFiles.parse (entity : Entity) (parser : Parser) :
    Option (ActionClass × List (String × KwargValue)) :=
  match entity.get_attr "filename" with
  | none => none
  | some v =>
    some (ActionClass.setParametersFromFiles,
      insertKey (actionParse entity parser) "filename"
        (KwargValue.substitutionList (parser.parse_substitution v)))

/-- A `TypeError` raised when calling the constructor with a kwargs
dictionary, or the normalizer failure propagated out of `__init__`. -/
inductive CallError where
  | missingRequiredArgument : String → CallError
  | unexpectedKeywordArgument : String → CallError
  | invalidSubstitutionInput : CallError
deriving DecidableEq

/-- Iterating a kwargs value as the constructor's `filenames` collection:
a Python list of substitution objects iterates element-wise, each element a
single substitution. -/
def KwargValue.asFilenames : KwargValue → List SomeSubstitutionsInput
  | KwargValue.substitutionList subs => subs.map SomeSubstitutionsInput.sub
  | KwargValue.filenamesList fns => fns

/-- Removing a key from a kwargs dictionary (the bound parameter is not
part of the `**kwargs` remainder). -/
def removeKey {α : Type} : List (String × α) → String → List (String × α)
  | [], _ => []
  | p :: rest, k => if p.1 = k then rest else p :: removeKey rest k

/-- The Python call `cls(**kwargs)` for
`__init__(self, filenames, **kwargs)`: binding fails with a `TypeError`
when the required parameter `filenames` is absent from the kwargs; any
leftover keyword travels to `super().__init__(**kwargs)`, which (modelled
from the spec: the base action takes no filename-related argument) rejects
it; otherwise the body runs, normalizing each element of the bound
`filenames` value. -/
def callInit (kwargs : List (String × KwargValue)) :
    Except CallError SetParametersFromFiles :=
  match lookupKey kwargs "filenames" with
  | none => Except.error (CallError.missingRequiredArgument "filenames")
  | some v =>
    match removeKey kwargs "filenames" with
    | [] =>
      match SetParametersFromFiles.init (KwargValue.asFilenames v) with
      | Except.ok a => Except.ok a
      | Except.error _ => Except.error CallError.invalidSubstitutionInput
    | p :: _ => Except.error (CallError.unexpectedKeywordArgument p.1)

/-! ### Dictionary lemmas -/

theorem lookupKey_insertKey_self {α : Type} (m : List (String × α)) (k : String) (v : α) :
    lookupKey (insertKey m k v) k = some v := by
  induction m with
  | nil => simp [insertKey, lookupKey]
  | cons p rest ih =>
    by_cases h : p.1 = k
    · simp [insertKey, h, lookupKey]
    · simp [insertKey, h, lookupKey, ih]

theorem lookupKey_insertKey_other {α : Type} (m : List (String × α)) (k k2 : String) (v : α)
    (h : k2 ≠ k) : lookupKey (insertKey m k v) k2 = lookupKey m k2 := by
  have hk : ¬ k = k2 := fun he => h he.symm
  induction m with
  | nil => simp [insertKey, lookupKey, hk]
  | cons p rest ih =>
    by_cases hp : p.1 = k
    · simp [insertKey, hp, lookupKey, hk]
    · simp [insertKey, hp, lookupKey, ih]

theorem insertKey_self_of_lookup {α : Type} (m : List (String × α)) (k : String) (v : α)
    (h : lookupKey m k = some v) : insertKey m k v = m := by
  induction m with
  | nil => simp [lookupKey] at h
  | cons p rest ih =>
    obtain ⟨k1, v1⟩ := p
    by_cases hp : k1 = k
    · subst hp
      simp [lookupKey] at h
      simp [insertKey, h]
    · simp [lookupKey, hp] at h
      simp [insertKey, hp, ih h]

/-! ### Resolution lemmas -/

theorem resolveAll_length (ctx : LaunchContext) (fs : List (List Substitution))
    (rs : List String) (h : resolveAll ctx fs = Except.ok rs) :
    rs.length = fs.length := by
  induction fs generalizing rs with
  | nil =>
    simp [resolveAll] at h
    simp [← h]
  | cons f rest ih =>
    cases hp : perform_substitutions ctx f with
    | error e => simp [resolveAll, hp] at h
    | ok s =>
      cases hr : resolveAll ctx rest with
      | error e => simp [resolveAll, hp, hr] at h
      | ok r =>
        simp [resolveAll, hp, hr] at h
        simp [← h, ih r hr]

theorem resolveFiles_of_resolveAll_ok (ctx : LaunchContext)
    (fs : List (List Substitution)) (rs : List String)
    (h : resolveAll ctx fs = Except.ok rs) :
    ∀ acc, resolveFiles ctx fs acc = (acc ++ rs, none) := by
  induction fs generalizing rs with
  | nil =>
    simp [resolveAll] at h
    intro acc
    simp [resolveFiles, ← h]
  | cons f rest ih =>
    intro acc
    cases hp : perform_substitutions ctx f with
    | error e => simp [resolveAll, hp] at h
    | ok s =>
      cases hr : resolveAll ctx rest with
      | error e => simp [resolveAll, hp, hr] at h
      | ok r =>
        simp [resolveAll, hp, hr] at h
        simp [resolveFiles, hp, ih r hr, ← h]

theorem resolveFiles_of_error (ctx : LaunchContext) (fs1 : List (List Substitution))
    (fk : List Substitution) (rest : List (List Substitution)) (rs1 : List String)
    (e : SubstitutionError)
    (h1 : resolveAll ctx fs1 = Except.ok rs1)
    (hk : perform_substitutions ctx fk = Except.error e) :
    ∀ acc, resolveFiles ctx (fs1 ++ fk :: rest) acc = (acc ++ rs1, some e) := by
  induction fs1 generalizing rs1 with
  | nil =>
    simp [resolveAll] at h1
    intro acc
    simp [resolveFiles, hk, ← h1]
  | cons f fs ih =>
    intro acc
    cases hp : perform_substitutions ctx f with
    | error e2 => simp [resolveAll, hp] at h1
    | ok s =>
      cases hr : resolveAll ctx fs with
      | error e2 => simp [resolveAll, hp, hr] at h1
      | ok r =>
        simp [resolveAll, hp, hr] at h1
        simp [resolveFiles, hp, ih r hr, ← h1]

theorem perform_of_env_eq (ctx1 ctx2 : LaunchContext)
    (h : ctx1.environment = ctx2.environment) (s : Substitution) :
    Substitution.perform ctx1 s = Substitution.perform ctx2 s := by
  cases s with
  | text t => simp [Substitution.perform]
  | env n => simp [Substitution.perform, h]

theorem perform_substitutions_of_env_eq (ctx1 ctx2 : LaunchContext)
    (h : ctx1.environment = ctx2.environment) (f : List Substitution) :
    perform_substitutions ctx1 f = perform_substitutions ctx2 f := by
  induction f with
  | nil => simp [perform_substitutions]
  | cons s rest ih =>
    simp [perform_substitutions, perform_of_env_eq ctx1 ctx2 h s, ih]

theorem resolveAll_of_env_eq (ctx1 ctx2 : LaunchContext)
    (h : ctx1.environment = ctx2.environment) (fs : List (List Substitution)) :
    resolveAll ctx1 fs = resolveAll ctx2 fs := by
  induction fs with
  | nil => simp [resolveAll]
  | cons f rest ih =>
    simp [resolveAll, perform_substitutions_of_env_eq ctx1 ctx2 h f, ih]

/-! ### Core lemmas about `execute` -/

theorem execute_ok_spec (a : SetParametersFromFiles) (ctx : LaunchContext)
    (prior rs : List String)
    (hprior : getGlobalParamsOrDefault ctx = some prior)
    (hres : resolveAll ctx a.input_files = Except.ok rs) :
    (a.execute ctx).2 = none ∧
    lookupKey (a.execute ctx).1.launch_configurations "global_params"
      = some (ConfigValue.strList (prior ++ rs)) ∧
    (a.execute ctx).1.environment = ctx.environment := by
  cases hl : lookupKey ctx.launch_configurations "global_params" with
  | none =>
    simp [getGlobalParamsOrDefault, hl] at hprior
    subst hprior
    simp [SetParametersFromFiles.execute, hl,
      resolveFiles_of_resolveAll_ok ctx a.input_files rs hres [],
      lookupKey_insertKey_self]
  | some cv =>
    cases cv with
    | str s => simp [getGlobalParamsOrDefault, hl] at hprior
    | strList l0 =>
      simp [getGlobalParamsOrDefault, hl] at hprior
      subst hprior
      simp [SetParametersFromFiles.execute, hl,
        resolveFiles_of_resolveAll_ok ctx a.input_files rs hres l0,
        lookupKey_insertKey_self]

theorem execute_env_eq (a : SetParametersFromFiles) (ctx : LaunchContext) :
    (a.execute ctx).1.environment = ctx.environment := by
  cases hl : lookupKey ctx.launch_configurations "global_params" with
  | none =>
    cases hr : (resolveFiles ctx a.input_files []).2 with
    | none => simp [SetParametersFromFiles.execute, hl, hr]
    | some e => simp [SetParametersFromFiles.execute, hl, hr]
  | some cv =>
    cases cv with
    | strList l0 => simp [SetParametersFromFiles.execute, hl]
    | str s =>
      cases hf : a.input_files with
      | nil => simp [SetParametersFromFiles.execute, hl, hf]
      | cons f rest =>
        cases hp : perform_substitutions ctx f with
        | error e => simp [SetParametersFromFiles.execute, hl, hf, hp]
        | ok v => simp [SetParametersFromFiles.execute, hl, hf, hp]

theorem execute_frame_key (a : SetParametersFromFiles) (ctx : LaunchContext) (k : String)
    (h : k ≠ "global_params") :
    lookupKey (a.execute ctx).1.launch_configurations k
      = lookupKey ctx.launch_configurations k := by
  cases hl : lookupKey ctx.launch_configurations "global_params" with
  | none =>
    cases hr : (resolveFiles ctx a.input_files []).2 with
    | none =>
      simp [SetParametersFromFiles.execute, hl, hr,
        lookupKey_insertKey_other ctx.launch_configurations "global_params" k _ h]
    | some e => simp [SetParametersFromFiles.execute, hl, hr]
  | some cv =>
    cases cv with
    | strList l0 =>
      simp [SetParametersFromFiles.execute, hl,
        lookupKey_insertKey_other ctx.launch_configurations "global_params" k _ h]
    | str s =>
      cases hf : a.input_files with
      | nil =>
        simp [SetParametersFromFiles.execute, hl, hf,
          lookupKey_insertKey_other ctx.launch_configurations "global_params" k _ h]
      | cons f rest =>
        cases hp : perform_substitutions ctx f with
        | error e => simp [SetParametersFromFiles.execute, hl, hf, hp]
        | ok v => simp [SetParametersFromFiles.execute, hl, hf, hp]

theorem execute_of_empty_and_present (a : SetParametersFromFiles) (ctx : LaunchContext)
    (v : ConfigValue) (hf : a.input_files = [])
    (hl : lookupKey ctx.launch_configurations "global_params" = some v) :
    a.execute ctx = (ctx, none) := by
  cases v with
  | str s =>
    simp [SetParametersFromFiles.execute, hl, hf,
      insertKey_self_of_lookup ctx.launch_configurations "global_params" _ hl]
  | strList l0 =>
    simp [SetParametersFromFiles.execute, hl, hf, resolveFiles,
      insertKey_self_of_lookup ctx.launch_configurations "global_params" _ hl]

theorem initInputFiles_ok_spec (fnames : List SomeSubstitutionsInput)
    (files : List (List Substitution))
    (h : initInputFiles fnames = Except.ok files) :
    files.length = fnames.length ∧
    ∀ i (hi : i < fnames.length) (hifl : i < files.length),
      normalize_to_list_of_substitutions (fnames.get ⟨i, hi⟩)
        = Except.ok (files.get ⟨i, hifl⟩) := by
  induction fnames generalizing files with
  | nil =>
    simp [initInputFiles] at h
    subst h
    exact ⟨rfl, fun i hi _ => absurd hi (Nat.not_lt_zero i)⟩
  | cons f rest ih =>
    cases hn : normalize_to_list_of_substitutions f with
    | error e => simp [initInputFiles, hn] at h
    | ok nf =>
      cases hr : initInputFiles rest with
      | error e => simp [initInputFiles, hn, hr] at h
      | ok nrest =>
        simp [initInputFiles, hn, hr] at h
        subst h
        obtain ⟨ihl, ihp⟩ := ih nrest hr
        refine ⟨by simp [ihl], ?_⟩
        intro i hi hifl
        cases i with
        | zero => exact hn
        | succ j =>
          exact ihp j (Nat.lt_of_succ_lt_succ hi) (Nat.lt_of_succ_lt_succ hifl)

theorem initInputFiles_error_of_mem (fnames : List SomeSubstitutionsInput)
    (f : SomeSubstitutionsInput) (hmem : f ∈ fnames)
    (hf : normalize_to_list_of_substitutions f
      = Except.error NormalizeError.invalidSubstitutionInput) :
    initInputFiles fnames
      = Except.error NormalizeError.invalidSubstitutionInput := by
  induction fnames with
  | nil => cases hmem
  | cons g rest ih =>
    cases hmem with
    | head => simp [initInputFiles, hf]
    | tail _ hm =>
      cases hn : normalize_to_list_of_substitutions g with
      | error e => cases e; simp [initInputFiles, hn]
      | ok ng => simp [initInputFiles, hn, ih hm]

theorem normalizeElems_ok_spec (es : List SubInputElem) (rs : List Substitution)
    (h : normalizeElems es = Except.ok rs) :
    rs.length = es.length ∧
    ∀ i (hi : i < es.length) (hr : i < rs.length),
      normalizeElem (es.get ⟨i, hi⟩) = Except.ok (rs.get ⟨i, hr⟩) := by
  induction es generalizing rs with
  | nil =>
    simp [normalizeElems] at h
    subst h
    exact ⟨rfl, fun i hi _ => absurd hi (Nat.not_lt_zero i)⟩
  | cons e rest ih =>
    cases hn : normalizeElem e with
    | error err => simp [normalizeElems, hn] at h
    | ok x =>
      cases hr : normalizeElems rest with
      | error err => simp [normalizeElems, hn, hr] at h
      | ok xs =>
        simp [normalizeElems, hn, hr] at h
        subst h
        obtain ⟨ihl, ihp⟩ := ih xs hr
        refine ⟨by simp [ihl], ?_⟩
        intro i hi hri
        cases i with
        | zero => exact hn
        | succ j =>
          exact ihp j (Nat.lt_of_succ_lt_succ hi) (Nat.lt_of_succ_lt_succ hri)

/-! ### Claim theorems -/

/-- C1: for every action constructed with a non-empty list of filenames
`[f1, ..., fn]` and every execution context, one completed call to
`execute` reads the current value of the context's `global_params` key
(the empty list when the key is absent) and leaves `global_params` equal
to that prior value with exactly `[resolve(f1), ..., resolve(fn)]`
appended at the end, in declaration order, with no sorting and no
deduplication. -/
theorem execute_appends_resolved_filenames (fnames : List SomeSubstitutionsInput)
    (a : SetParametersFromFiles) (ctx : LaunchContext) (prior rs : List String)
    (_hinit : SetParametersFromFiles.init fnames = Except.ok a)
    (_hne : fnames ≠ [])
    (hprior : getGlobalParamsOrDefault ctx = some prior)
    (hres : resolveAll ctx a.input_files = Except.ok rs) :
    (a.execute ctx).2 = none ∧
    getGlobalParamsOrDefault (a.execute ctx).1 = some (prior ++ rs) := by
  obtain ⟨h1, h2, _⟩ := execute_ok_spec a ctx prior rs hprior hres
  exact ⟨h1, by simp [getGlobalParamsOrDefault, h2]⟩

/-- Witness for C1: two literal filenames `["b.yaml", "a.yaml"]` executed
on a context whose `global_params` already holds `["p.yaml"]` yield
`["p.yaml", "b.yaml", "a.yaml"]`, in declaration order. -/
theorem execute_appends_resolved_filenames_witness :
    (SetParametersFromFiles.execute
        (SetParametersFromFiles.mk
          [[Substitution.text "b.yaml"], [Substitution.text "a.yaml"]])
        (LaunchContext.mk [("global_params", ConfigValue.strList ["p.yaml"])] [])).2
      = none ∧
    getGlobalParamsOrDefault
        (SetParametersFromFiles.execute
          (SetParametersFromFiles.mk
            [[Substitution.text "b.yaml"], [Substitution.text "a.yaml"]])
          (LaunchContext.mk [("global_params", ConfigValue.strList ["p.yaml"])] [])).1
      = some ["p.yaml", "b.yaml", "a.yaml"] :=
  execute_appends_resolved_filenames
    [SomeSubstitutionsInput.text "b.yaml", SomeSubstitutionsInput.text "a.yaml"]
    (SetParametersFromFiles.mk
      [[Substitution.text "b.yaml"], [Substitution.text "a.yaml"]])
    (LaunchContext.mk [("global_params", ConfigValue.strList ["p.yaml"])] [])
    ["p.yaml"] ["b.yaml", "a.yaml"]
    rfl (List.cons_ne_nil _ _) rfl rfl

/-- C3 as stated is refuted: executing an action constructed with an empty
filenames iterable on a context whose configuration lacks the
`global_params` key does not leave that entry unchanged — the
unconditional write-back binds the previously absent key. -/
theorem empty_execute_on_absent_key_changes_entry :
    ¬ (lookupKey ((SetParametersFromFiles.execute (SetParametersFromFiles.mk [])
          (LaunchContext.mk [] [])).1).launch_configurations "global_params"
        = lookupKey (LaunchContext.mk ([] : List (String × ConfigValue))
            ([] : List (String × String))).launch_configurations "global_params") := by
  decide

/-- C3 (amended): executing an action constructed with an empty filenames
iterable never raises and leaves the value read for `global_params`
(absent read as the empty list) unchanged; a context in which the key was
already present is left entirely unchanged, while an absent key becomes
present, bound to the empty list, because the write-back is
unconditional. -/
theorem empty_filenames_execute_value_unchanged (a : SetParametersFromFiles)
    (ctx : LaunchContext) (hf : a.input_files = []) :
    (a.execute ctx).2 = none ∧
    getGlobalParamsOrDefault (a.execute ctx).1 = getGlobalParamsOrDefault ctx ∧
    (∀ v, lookupKey ctx.launch_configurations "global_params" = some v →
      (a.execute ctx).1 = ctx) ∧
    (lookupKey ctx.launch_configurations "global_params" = none →
      lookupKey (a.execute ctx).1.launch_configurations "global_params"
        = some (ConfigValue.strList [])) := by
  cases hl : lookupKey ctx.launch_configurations "global_params" with
  | none =>
    refine ⟨?_, ?_, ?_, ?_⟩
    · simp [SetParametersFromFiles.execute, hl, hf, resolveFiles]
    · simp [SetParametersFromFiles.execute, hl, hf, resolveFiles,
        getGlobalParamsOrDefault, lookupKey_insertKey_self]
    · intro v hv
      exact Option.noConfusion hv
    · intro _
      simp [SetParametersFromFiles.execute, hl, hf, resolveFiles,
        lookupKey_insertKey_self]
  | some v =>
    have he := execute_of_empty_and_present a ctx v hf hl
    refine ⟨by simp [he], by simp [he], fun _ _ => by simp [he], ?_⟩
    intro habs
    exact Option.noConfusion habs

/-- Witness for C3 (amended): executing the zero-filename action on a
context holding `global_params == ["p.yaml"]` leaves the context entirely
unchanged, and on a context without the key binds it to the empty
list. -/
theorem empty_filenames_execute_value_unchanged_witness :
    ((SetParametersFromFiles.execute (SetParametersFromFiles.mk [])
        (LaunchContext.mk [("global_params", ConfigValue.strList ["p.yaml"])] [])).1
      = LaunchContext.mk [("global_params", ConfigValue.strList ["p.yaml"])] []) ∧
    lookupKey (SetParametersFromFiles.execute (SetParametersFromFiles.mk [])
        (LaunchContext.mk [] [])).1.launch_configurations "global_params"
      = some (ConfigValue.strList []) :=
  ⟨(empty_filenames_execute_value_unchanged (SetParametersFromFiles.mk [])
      (LaunchContext.mk [("global_params", ConfigValue.strList ["p.yaml"])] [])
      rfl).2.2.1 (ConfigValue.strList ["p.yaml"]) rfl,
   (empty_filenames_execute_value_unchanged (SetParametersFromFiles.mk [])
      (LaunchContext.mk [] []) rfl).2.2.2 rfl⟩

/-- C4: `execute` is not idempotent — executing the same action twice on
the same context appends the resolved filename sequence twice, once per
execution and in order, which differs from appending it once whenever the
action holds at least one filename. -/
theorem execute_twice_appends_twice (a : SetParametersFromFiles)
    (ctx : LaunchContext) (prior rs : List String)
    (hne : a.input_files ≠ [])
    (hprior : getGlobalParamsOrDefault ctx = some prior)
    (hres : resolveAll ctx a.input_files = Except.ok rs) :
    (a.execute ctx).2 = none ∧
    (a.execute (a.execute ctx).1).2 = none ∧
    getGlobalParamsOrDefault (a.execute (a.execute ctx).1).1
      = some (prior ++ rs ++ rs) ∧
    prior ++ rs ++ rs ≠ prior ++ rs := by
  obtain ⟨h1, h2, h3⟩ := execute_ok_spec a ctx prior rs hprior hres
  have hprior2 : getGlobalParamsOrDefault (a.execute ctx).1 = some (prior ++ rs) := by
    simp [getGlobalParamsOrDefault, h2]
  have hres2 : resolveAll (a.execute ctx).1 a.input_files = Except.ok rs := by
    rw [resolveAll_of_env_eq (a.execute ctx).1 ctx h3 a.input_files]
    exact hres
  obtain ⟨g1, g2, _⟩ :=
    execute_ok_spec a (a.execute ctx).1 (prior ++ rs) rs hprior2 hres2
  have hlen : rs.length = a.input_files.length :=
    resolveAll_length ctx a.input_files rs hres
  have hrs : rs.length ≠ 0 := by
    intro h0
    exact hne (by
      have := hlen.symm.trans h0
      exact List.length_eq_zero.mp this)
  refine ⟨h1, g1, by simp [getGlobalParamsOrDefault, g2], ?_⟩
  intro habs
  have hlens := congrArg List.length habs
  simp only [List.length_append] at hlens
  omega

/-- Witness for C4: the one-filename action `["x.yaml"]` executed twice on
an initially empty context yields `["x.yaml", "x.yaml"]`, not
`["x.yaml"]`. -/
theorem execute_twice_appends_twice_witness :
    (SetParametersFromFiles.execute
        (SetParametersFromFiles.mk [[Substitution.text "x.yaml"]])
        (LaunchContext.mk [] [])).2 = none ∧
    (SetParametersFromFiles.execute
        (SetParametersFromFiles.mk [[Substitution.text "x.yaml"]])
        (SetParametersFromFiles.execute
          (SetParametersFromFiles.mk [[Substitution.text "x.yaml"]])
          (LaunchContext.mk [] [])).1).2 = none ∧
    getGlobalParamsOrDefault
        (SetParametersFromFiles.execute
          (SetParametersFromFiles.mk [[Substitution.text "x.yaml"]])
          (SetParametersFromFiles.execute
            (SetParametersFromFiles.mk [[Substitution.text "x.yaml"]])
            (LaunchContext.mk [] [])).1).1
      = some ["x.yaml", "x.yaml"] ∧
    (["x.yaml", "x.yaml"] : List String) ≠ ["x.yaml"] :=
  execute_twice_appends_twice
    (SetParametersFromFiles.mk [[Substitution.text "x.yaml"]])
    (LaunchContext.mk [] []) [] ["x.yaml"]
    (List.cons_ne_nil _ _) rfl rfl

/-- C5: executions of distinct declarations on the same context
accumulate — executing `A` constructed with `["x.yaml"]` and then `B`
constructed with `["y.yaml"]` leaves `global_params` equal to its prior
value followed by `"x.yaml"` then `"y.yaml"`. -/
theorem sequential_declarations_accumulate (A B : SetParametersFromFiles)
    (ctx : LaunchContext) (prior : List String)
    (hA : SetParametersFromFiles.init [SomeSubstitutionsInput.text "x.yaml"]
      = Except.ok A)
    (hB : SetParametersFromFiles.init [SomeSubstitutionsInput.text "y.yaml"]
      = Except.ok B)
    (hprior : getGlobalParamsOrDefault ctx = some prior) :
    (A.execute ctx).2 = none ∧
    (B.execute (A.execute ctx).1).2 = none ∧
    getGlobalParamsOrDefault (B.execute (A.execute ctx).1).1
      = some (prior ++ ["x.yaml", "y.yaml"]) := by
  have hA2 : A = SetParametersFromFiles.mk [[Substitution.text "x.yaml"]] := by
    have h : Except.ok (SetParametersFromFiles.mk [[Substitution.text "x.yaml"]])
        = Except.ok A := hA
    injection h with h2
    exact h2.symm
  have hB2 : B = SetParametersFromFiles.mk [[Substitution.text "y.yaml"]] := by
    have h : Except.ok (SetParametersFromFiles.mk [[Substitution.text "y.yaml"]])
        = Except.ok B := hB
    injection h with h2
    exact h2.symm
  subst hA2
  subst hB2
  obtain ⟨h1, h2, _⟩ :=
    execute_ok_spec (SetParametersFromFiles.mk [[Substitution.text "x.yaml"]])
      ctx prior ["x.yaml"] hprior rfl
  have hprior2 : getGlobalParamsOrDefault
      ((SetParametersFromFiles.mk [[Substitution.text "x.yaml"]]).execute ctx).1
      = some (prior ++ ["x.yaml"]) := by
    simp [getGlobalParamsOrDefault, h2]
  obtain ⟨g1, g2, _⟩ :=
    execute_ok_spec (SetParametersFromFiles.mk [[Substitution.text "y.yaml"]])
      ((SetParametersFromFiles.mk [[Substitution.text "x.yaml"]]).execute ctx).1
      (prior ++ ["x.yaml"]) ["y.yaml"] hprior2 rfl
  refine ⟨h1, g1, ?_⟩
  simp [getGlobalParamsOrDefault, g2]

/-- Witness for C5: on an initially empty context, executing
`A = ["x.yaml"]` then `B = ["y.yaml"]` yields
`global_params == ["x.yaml", "y.yaml"]`. -/
theorem sequential_declarations_accumulate_witness :
    (SetParametersFromFiles.execute
        (SetParametersFromFiles.mk [[Substitution.text "x.yaml"]])
        (LaunchContext.mk [] [])).2 = none ∧
    (SetParametersFromFiles.execute
        (SetParametersFromFiles.mk [[Substitution.text "y.yaml"]])
        (SetParametersFromFiles.execute
          (SetParametersFromFiles.mk [[Substitution.text "x.yaml"]])
          (LaunchContext.mk [] [])).1).2 = none ∧
    getGlobalParamsOrDefault
        (SetParametersFromFiles.execute
          (SetParametersFromFiles.mk [[Substitution.text "y.yaml"]])
          (SetParametersFromFiles.execute
            (SetParametersFromFiles.mk [[Substitution.text "x.yaml"]])
            (LaunchContext.mk [] [])).1).1
      = some ["x.yaml", "y.yaml"] :=
  sequential_declarations_accumulate
    (SetParametersFromFiles.mk [[Substitution.text "x.yaml"]])
    (SetParametersFromFiles.mk [[Substitution.text "y.yaml"]])
    (LaunchContext.mk [] []) []
    rfl rfl rfl

/-- C6: the only observable effect of `execute` on the context is on the
`global_params` key — every other key of the configuration mapping is
unchanged, and so is the ambient environment. The action's own stored
substitution sequences are untouched (in this embedding `execute` is a
function of the action that returns only a new context), and the model
contains no file operation at all, matching the source, which never
opens, reads, or validates the named file. -/
theorem execute_only_touches_global_params (a : SetParametersFromFiles)
    (ctx : LaunchContext) (k : String) (hk : k ≠ "global_params") :
    lookupKey (a.execute ctx).1.launch_configurations k
      = lookupKey ctx.launch_configurations k ∧
    (a.execute ctx).1.environment = ctx.environment :=
  ⟨execute_frame_key a ctx k hk, execute_env_eq a ctx⟩

/-- Witness for C6: executing a one-filename action on a context carrying
an unrelated key `use_sim_time` leaves that key's value and the
environment unchanged. -/
theorem execute_only_touches_global_params_witness :
    lookupKey (SetParametersFromFiles.execute
        (SetParametersFromFiles.mk [[Substitution.text "x.yaml"]])
        (LaunchContext.mk [("use_sim_time", ConfigValue.str "true")]
          [("HOME", "/root")])).1.launch_configurations "use_sim_time"
      = lookupKey
          (LaunchContext.mk [("use_sim_time", ConfigValue.str "true")]
            [("HOME", "/root")]).launch_configurations "use_sim_time" ∧
    (SetParametersFromFiles.execute
        (SetParametersFromFiles.mk [[Substitution.text "x.yaml"]])
        (LaunchContext.mk [("use_sim_time", ConfigValue.str "true")]
          [("HOME", "/root")])).1.environment
      = (LaunchContext.mk [("use_sim_time", ConfigValue.str "true")]
          [("HOME", "/root")]).environment :=
  execute_only_touches_global_params
    (SetParametersFromFiles.mk [[Substitution.text "x.yaml"]])
    (LaunchContext.mk [("use_sim_time", ConfigValue.str "true")] [("HOME", "/root")])
    "use_sim_time" (by decide)

/-- C2 is refuted on the code (code bug): for every entity carrying a
`filename` attribute and every parser, `parse` does consume the single
`filename` attribute and pass it through `parser.parse_substitution`, but
the returned kwargs store the result under the key `"filename"`, while
the constructor's required parameter is named `filenames`; hence calling
the returned class with the returned kwargs raises a `TypeError` for the
missing required argument `filenames` instead of constructing a
one-filename declaration, contradicting the method's own docstring
("kwargs for constructing it"). -/
theorem parse_kwargs_do_not_construct (entity : Entity) (p : Parser) (v : String)
    (hattr : entity.get_attr "filename" = some v) :
    SetParametersFromFiles.parse entity p
      = some (ActionClass.setParametersFromFiles,
          [("filename", KwargValue.substitutionList (p.parse_substitution v))]) ∧
    callInit [("filename", KwargValue.substitutionList (p.parse_substitution v))]
      = Except.error (CallError.missingRequiredArgument "filenames") := by
  constructor
  · simp [SetParametersFromFiles.parse, hattr, actionParse, insertKey]
  · rfl

/-- Witness for C2's failing input: the declarative entity
`<set_parameters_from_files filename="/etc/p.yaml"/>` with a parser that
turns text into a literal substitution: the parse succeeds but the
produced kwargs cannot construct the action. -/
theorem parse_kwargs_do_not_construct_witness :
    SetParametersFromFiles.parse (Entity.mk [("filename", "/etc/p.yaml")])
        (Parser.mk (fun s => [Substitution.text s]))
      = some (ActionClass.setParametersFromFiles,
          [("filename",
            KwargValue.substitutionList [Substitution.text "/etc/p.yaml"])]) ∧
    callInit [("filename",
        KwargValue.substitutionList [Substitution.text "/etc/p.yaml"])]
      = Except.error (CallError.missingRequiredArgument "filenames") :=
  parse_kwargs_do_not_construct (Entity.mk [("filename", "/etc/p.yaml")])
    (Parser.mk (fun s => [Substitution.text s])) "/etc/p.yaml" rfl

/-- C7: construction normalizes each element of the filenames iterable,
in input order, into the internal ordered list of substitution sequences,
one stored sequence per input element; if any element is neither text nor
a recognized substitution, construction fails with
`InvalidSubstitutionInput`. (No execution context exists at construction
time: `init` does not receive one.) -/
theorem init_normalizes_in_order (fnames : List SomeSubstitutionsInput) :
    (∀ a, SetParametersFromFiles.init fnames = Except.ok a →
      a.input_files.length = fnames.length ∧
      ∀ i (hi : i < fnames.length) (hia : i < a.input_files.length),
        normalize_to_list_of_substitutions (fnames.get ⟨i, hi⟩)
          = Except.ok (a.input_files.get ⟨i, hia⟩)) ∧
    ((∃ f, f ∈ fnames ∧
        normalize_to_list_of_substitutions f
          = Except.error NormalizeError.invalidSubstitutionInput) →
      SetParametersFromFiles.init fnames
        = Except.error NormalizeError.invalidSubstitutionInput) := by
  constructor
  · intro a ha
    cases hii : initInputFiles fnames with
    | error e => simp [SetParametersFromFiles.init, hii] at ha
    | ok files =>
      simp [SetParametersFromFiles.init, hii] at ha
      obtain ⟨hl, hp⟩ := initInputFiles_ok_spec fnames files hii
      subst ha
      exact ⟨hl, hp⟩
  · rintro ⟨f, hmem, hf⟩
    simp [SetParametersFromFiles.init,
      initInputFiles_error_of_mem fnames f hmem hf]

/-- Witness for C7: constructing from `["a.yaml", env(X)]` stores two
sequences, each the normalization of its input, and construction from
`["a.yaml", 5]` (an invalid element) fails with
`InvalidSubstitutionInput`. -/
theorem init_normalizes_in_order_witness :
    (normalize_to_list_of_substitutions
        ([SomeSubstitutionsInput.text "a.yaml",
          SomeSubstitutionsInput.sub (Substitution.env "X")].get ⟨0, by decide⟩)
      = Except.ok ((SetParametersFromFiles.mk
          [[Substitution.text "a.yaml"], [Substitution.env "X"]]).input_files.get
            ⟨0, by decide⟩)) ∧
    SetParametersFromFiles.init
        [SomeSubstitutionsInput.text "a.yaml", SomeSubstitutionsInput.invalid]
      = Except.error NormalizeError.invalidSubstitutionInput :=
  ⟨((init_normalizes_in_order
        [SomeSubstitutionsInput.text "a.yaml",
         SomeSubstitutionsInput.sub (Substitution.env "X")]).1
      (SetParametersFromFiles.mk
        [[Substitution.text "a.yaml"], [Substitution.env "X"]]) rfl).2
      0 (by decide) (by decide),
   (init_normalizes_in_order
      [SomeSubstitutionsInput.text "a.yaml", SomeSubstitutionsInput.invalid]).2
     ⟨SomeSubstitutionsInput.invalid, by simp, rfl⟩⟩

/-- C8: when resolving the k-th filename during `execute` fails partway
through the loop, the effect on the context is not atomic when the
`global_params` key already existed — the first k-1 resolved filenames
remain appended to the pre-existing list (the in-place `append` mutated
the very list object stored in the dictionary) even though the final
write-back never runs; when the key was absent before the call, the
context is unchanged on error. -/
theorem execute_error_partial_effect (ctx : LaunchContext)
    (fs1 : List (List Substitution)) (fk : List Substitution)
    (rest : List (List Substitution)) (rs1 : List String) (e : SubstitutionError)
    (h1 : resolveAll ctx fs1 = Except.ok rs1)
    (hk : perform_substitutions ctx fk = Except.error e) :
    (∀ l0, lookupKey ctx.launch_configurations "global_params"
        = some (ConfigValue.strList l0) →
      (SetParametersFromFiles.execute
          (SetParametersFromFiles.mk (fs1 ++ fk :: rest)) ctx).2
        = some (ExecError.resolution e) ∧
      lookupKey (SetParametersFromFiles.execute
          (SetParametersFromFiles.mk (fs1 ++ fk :: rest)) ctx).1.launch_configurations
          "global_params"
        = some (ConfigValue.strList (l0 ++ rs1))) ∧
    (lookupKey ctx.launch_configurations "global_params" = none →
      (SetParametersFromFiles.execute
          (SetParametersFromFiles.mk (fs1 ++ fk :: rest)) ctx).2
        = some (ExecError.resolution e) ∧
      (SetParametersFromFiles.execute
          (SetParametersFromFiles.mk (fs1 ++ fk :: rest)) ctx).1 = ctx) := by
  constructor
  · intro l0 hl
    have hrf := resolveFiles_of_error ctx fs1 fk rest rs1 e h1 hk l0
    simp [SetParametersFromFiles.execute, hl, hrf, lookupKey_insertKey_self]
  · intro hl
    have hrf := resolveFiles_of_error ctx fs1 fk rest rs1 e h1 hk []
    simp [SetParametersFromFiles.execute, hl, hrf]

/-- Witness for C8: the action `["a.yaml", env(MISSING)]` fails on its
second filename; on a context where `global_params` was `["p.yaml"]` the
first resolved filename is still appended (`["p.yaml", "a.yaml"]`), while
on a context without the key the configuration is unchanged. -/
theorem execute_error_partial_effect_witness :
    ((SetParametersFromFiles.execute
        (SetParametersFromFiles.mk
          [[Substitution.text "a.yaml"], [Substitution.env "MISSING"]])
        (LaunchContext.mk [("global_params", ConfigValue.strList ["p.yaml"])] [])).2
      = some (ExecError.resolution (SubstitutionError.missingEnv "MISSING")) ∧
    lookupKey (SetParametersFromFiles.execute
        (SetParametersFromFiles.mk
          [[Substitution.text "a.yaml"], [Substitution.env "MISSING"]])
        (LaunchContext.mk [("global_params", ConfigValue.strList ["p.yaml"])]
          [])).1.launch_configurations "global_params"
      = some (ConfigValue.strList ["p.yaml", "a.yaml"])) ∧
    ((SetParametersFromFiles.execute
        (SetParametersFromFiles.mk
          [[Substitution.text "a.yaml"], [Substitution.env "MISSING"]])
        (LaunchContext.mk [] [])).2
      = some (ExecError.resolution (SubstitutionError.missingEnv "MISSING")) ∧
    (SetParametersFromFiles.execute
        (SetParametersFromFiles.mk
          [[Substitution.text "a.yaml"], [Substitution.env "MISSING"]])
        (LaunchContext.mk [] [])).1 = LaunchContext.mk [] []) :=
  ⟨(execute_error_partial_effect
      (LaunchContext.mk [("global_params", ConfigValue.strList ["p.yaml"])] [])
      [[Substitution.text "a.yaml"]] [Substitution.env "MISSING"] [] ["a.yaml"]
      (SubstitutionError.missingEnv "MISSING") rfl rfl).1 ["p.yaml"] rfl,
   (execute_error_partial_effect (LaunchContext.mk [] [])
      [[Substitution.text "a.yaml"]] [Substitution.env "MISSING"] [] ["a.yaml"]
      (SubstitutionError.missingEnv "MISSING") rfl rfl).2 rfl⟩

/-- C9: after every completed (non-raising) call to `execute` — including
for an action constructed with zero filenames — the `global_params` key
is present in the context's configuration mapping, because the write-back
of the key is unconditional; a previously absent key becomes bound to the
empty list when the action holds no filenames. -/
theorem execute_completed_binds_key (a : SetParametersFromFiles)
    (ctx : LaunchContext) (h : (a.execute ctx).2 = none) :
    (lookupKey (a.execute ctx).1.launch_configurations "global_params").isSome
      = true ∧
    (a.input_files = [] →
      lookupKey ctx.launch_configurations "global_params" = none →
      lookupKey (a.execute ctx).1.launch_configurations "global_params"
        = some (ConfigValue.strList [])) := by
  cases hl : lookupKey ctx.launch_configurations "global_params" with
  | none =>
    cases hr : (resolveFiles ctx a.input_files []).2 with
    | some e => simp [SetParametersFromFiles.execute, hl, hr] at h
    | none =>
      constructor
      · simp [SetParametersFromFiles.execute, hl, hr, lookupKey_insertKey_self]
      · intro hf _
        simp [SetParametersFromFiles.execute, hl, hf, resolveFiles,
          lookupKey_insertKey_self]
  | some cv =>
    cases cv with
    | strList l0 =>
      constructor
      · simp [SetParametersFromFiles.execute, hl, lookupKey_insertKey_self]
      · intro _ habs
        exact Option.noConfusion habs
    | str s =>
      cases hf : a.input_files with
      | nil =>
        constructor
        · simp [SetParametersFromFiles.execute, hl, hf, lookupKey_insertKey_self]
        · intro _ habs
          exact Option.noConfusion habs
      | cons f rest2 =>
        cases hp : perform_substitutions ctx f with
        | error e => simp [SetParametersFromFiles.execute, hl, hf, hp] at h
        | ok w => simp [SetParametersFromFiles.execute, hl, hf, hp] at h

/-- Witness for C9: executing the zero-filename action on a context
without the key completes and binds `global_params` to the empty list. -/
theorem execute_completed_binds_key_witness :
    (lookupKey (SetParametersFromFiles.execute (SetParametersFromFiles.mk [])
        (LaunchContext.mk [] [])).1.launch_configurations "global_params").isSome
      = true ∧
    lookupKey (SetParametersFromFiles.execute (SetParametersFromFiles.mk [])
        (LaunchContext.mk [] [])).1.launch_configurations "global_params"
      = some (ConfigValue.strList []) :=
  ⟨(execute_completed_binds_key (SetParametersFromFiles.mk [])
      (LaunchContext.mk [] []) rfl).1,
   (execute_completed_binds_key (SetParametersFromFiles.mk [])
      (LaunchContext.mk [] []) rfl).2 rfl rfl⟩

/-- C10: the normalizer maps a single atomic text to the one-element
sequence holding its literal-text substitution and a single substitution
to the one-element sequence holding it unchanged; an input that is
already a sequence yields a sequence of the same length, in the same
order, with each raw-text element wrapped as a literal-text substitution
and each substitution element kept. The normalizer is a pure Lean
function of its input alone — it takes no execution context, so it is
deterministic and cannot touch one. -/
theorem normalize_contract :
    (∀ s, normalize_to_list_of_substitutions (SomeSubstitutionsInput.text s)
      = Except.ok [Substitution.text s]) ∧
    (∀ x, normalize_to_list_of_substitutions (SomeSubstitutionsInput.sub x)
      = Except.ok [x]) ∧
    (∀ s, normalizeElem (SubInputElem.text s) = Except.ok (Substitution.text s)) ∧
    (∀ x, normalizeElem (SubInputElem.sub x) = Except.ok x) ∧
    (∀ es rs,
      normalize_to_list_of_substitutions (SomeSubstitutionsInput.listOf es)
        = Except.ok rs →
      rs.length = es.length ∧
      ∀ i (hi : i < es.length) (hr : i < rs.length),
        normalizeElem (es.get ⟨i, hi⟩) = Except.ok (rs.get ⟨i, hr⟩)) := by
  refine ⟨fun s => rfl, fun x => rfl, fun s => rfl, fun x => rfl, ?_⟩
  intro es rs h
  exact normalizeElems_ok_spec es rs h

/-- Witness for C10: normalizing the sequence `["raw", env(X)]` yields the
two-element sequence with the raw text wrapped and the substitution kept,
pointwise at index 0. -/
theorem normalize_contract_witness :
    normalize_to_list_of_substitutions (SomeSubstitutionsInput.text "f.yaml")
      = Except.ok [Substitution.text "f.yaml"] ∧
    normalizeElem
        ([SubInputElem.text "raw", SubInputElem.sub (Substitution.env "X")].get
          ⟨0, by decide⟩)
      = Except.ok (([Substitution.text "raw", Substitution.env "X"]).get
          ⟨0, by decide⟩) :=
  ⟨normalize_contract.1 "f.yaml",
   (normalize_contract.2.2.2.2
      [SubInputElem.text "raw", SubInputElem.sub (Substitution.env "X")]
      [Substitution.text "raw", Substitution.env "X"] rfl).2
     0 (by decide) (by decide)⟩

end LaunchRos
